import Mathlib

/-!
Shallow embedding of the runtime core of a tree-walking Lox interpreter
(files `src/value.rs`, `src/stmt.rs`, `src/interpreter.rs`), together with
the parts of the crate that those files use but whose sources are not in
the snapshot (`expr.rs`, `environment.rs`, the crate root's `Token`,
`TokenType` and `Error`, and `value/callable.rs`); those are modelled from
the specification and from their uses in the files that are present.

Numbers (`f64` in the source) are modelled as rationals: the claims under
verification concern variant dispatch, error selection and control flow,
not IEEE bit-level behaviour.
-/

set_option maxRecDepth 4000

/-- Abbreviation for the host string type, usable inside namespaces that
declare a constructor named `String`. -/
abbrev Str : Type := String

/-- Modelled from the spec: the crate-root `TokenType` enum is not in the
snapshot.  Only the kinds consumed by `interpreter.rs` are modelled; an
identifier token carries the variable name it references. -/
inductive TT where
  | EqualEqual
  | BangEqual
  | Minus
  | Slash
  | Star
  | Plus
  | Greater
  | GreaterEqual
  | Less
  | LessEqual
  | Bang
  | Or
  | And
  | Identifier (name : String)
  deriving DecidableEq, Repr

/-- Modelled from the spec: the crate-root `Token` is not in the snapshot.
Per the spec and `Token::new(kind, line)` in `bin/ast_printer.rs` it
carries an operator/keyword kind and a source line number. -/
structure Token where
  kind : TT
  line : Nat
  deriving DecidableEq, Repr

/-- Mirrors `Token::kind_matches`, used by the interpreter only to test
whether a logical operator token is `Or`. -/
def Token.kind_matches (t : Token) (k : TT) : Bool :=
  t.kind == k

/-- Modelled from the spec: name extraction from an identifier token, used
by `Environment::get`/`assign` (whose source is not in the snapshot). -/
def Token.name (t : Token) : String :=
  match t.kind with
  | .Identifier s => s
  | _ => ""

/-- Modelled from the spec: `value/callable.rs` is not in the snapshot.
A callable has a name and a fixed arity; its invocable body is never
constructed, invoked or compared in this slice, so it is omitted. -/
structure Callable where
  name : String
  arity : Nat
  deriving DecidableEq, Repr

/-- Mirrors the `LoxValue` enum of `src/value.rs`.  `Number` holds a
rational in place of `f64`; `Function` holds the modelled callable. -/
inductive LoxValue where
  | Number (n : Rat)
  | String (s : String)
  | Boolean (b : Bool)
  | Function (c : Callable)
  | Nil
  deriving DecidableEq, Repr

/-- Mirrors `LoxValue::is_truthy`: `Nil` is falsy, `Boolean(b)` has
truthiness `b`, everything else is truthy. -/
def LoxValue.is_truthy : LoxValue → Bool
  | .Nil => false
  | .Boolean b => b
  | _ => true

/-- Mirrors `LoxValue::is_number`. -/
def LoxValue.is_number : LoxValue → Bool
  | .Number _ => true
  | _ => false

/-- Mirrors `LoxValue::as_number`, which panics on a non-`Number` variant;
the panic branch is modelled as `none`. -/
def LoxValue.as_number : LoxValue → Option Rat
  | .Number n => some n
  | _ => none

/-- Mirrors `LoxValue::is_callable`. -/
def LoxValue.is_callable : LoxValue → Bool
  | .Function _ => true
  | _ => false

/-- Variant discriminant of a `LoxValue`, modelling
`std::mem::discriminant`. -/
def LoxValue.tag : LoxValue → Nat
  | .Number _ => 0
  | .String _ => 1
  | .Boolean _ => 2
  | .Function _ => 3
  | .Nil => 4

/-- Mirrors `LoxValue::type_matches`: discriminant comparison. -/
def LoxValue.type_matches (a b : LoxValue) : Bool :=
  a.tag == b.tag

/-- Mirrors `impl PartialEq for LoxValue` in `src/value.rs`. -/
def LoxValue.eq : LoxValue → LoxValue → Bool
  | .Number a, .Number b => a == b
  | .String a, .String b => a == b
  | .Boolean a, .Boolean b => a == b
  | .Function _, .Function _ => false
  | .Nil, .Nil => true
  | _, _ => false

/-- Mirrors `impl Display for LoxValue` (`Number` rendering uses the
rational's textual form in place of Rust's `f64` formatting). -/
def LoxValue.display : LoxValue → Str
  | .Number n => toString n
  | .String s => s
  | .Boolean b => toString b
  | .Function c => "<function " ++ c.name ++ ">"
  | .Nil => "nil"

/-- Mirrors the `Literal` enum of `expr.rs` (not in the snapshot), whose
variants are fixed by the exhaustive `From<Literal> for LoxValue` impl in
`src/value.rs`. -/
inductive Literal where
  | Number (n : Rat)
  | String (s : String)
  | Boolean (b : Bool)
  | Nil
  deriving DecidableEq, Repr

/-- Mirrors `impl From<Literal> for LoxValue` in `src/value.rs`. -/
def Literal.toLoxValue : Literal → LoxValue
  | .Number n => .Number n
  | .String s => .String s
  | .Boolean b => .Boolean b
  | .Nil => .Nil

/-- The crate-root `Error` type is not in the snapshot; its `Runtime`
variant (offending token plus message) is fixed by its construction sites
in `src/interpreter.rs`.  `Panic` models a Rust `panic!`/`unreachable!`,
which the spec keeps distinct from user-facing runtime errors. -/
inductive Error where
  | Runtime (tok : Token) (msg : String)
  | TryFromErr (msg : String)
  | Panic (msg : String)
  deriving DecidableEq, Repr

abbrev LoxResult (α : Type) := Except Error α

/-- Modelled from the spec: `environment.rs` is not in the snapshot.  One
scope frame is a name-to-value mapping, represented as an association
list. -/
abbrev Frame := List (Str × LoxValue)

/-- First value bound to `n` in a frame, if any. -/
def Frame.lookup : Frame → Str → Option LoxValue
  | [], _ => none
  | (k, w) :: rest, n => if k = n then some w else Frame.lookup rest n

/-- Binds `n` to `v` in a frame, overwriting an existing binding for `n`
and inserting one otherwise. -/
def Frame.set : Frame → Str → LoxValue → Frame
  | [], n, v => [(n, v)]
  | (k, w) :: rest, n, v =>
      if k = n then (n, v) :: rest else (k, w) :: Frame.set rest n v

/-- Modelled from the spec: the environment is an ordered stack of scope
frames; the head of the list is the innermost frame and the base frame is
last. -/
structure Environment where
  frames : List Frame
  deriving DecidableEq, Repr

/-- Modelled from the spec: a fresh environment holds exactly the empty
base frame. -/
def Environment.new : Environment := ⟨[[]]⟩

/-- Modelled from the spec: `push_scope` adds an innermost frame. -/
def Environment.push_scope (e : Environment) : Environment :=
  ⟨[] :: e.frames⟩

/-- Modelled from the spec: `pop_scope` removes the innermost frame
(popping below the base frame is a contract violation, never exercised). -/
def Environment.pop_scope (e : Environment) : Environment :=
  ⟨e.frames.tail⟩

/-- Modelled from the spec: `define` inserts or overwrites the name in the
innermost frame and never fails. -/
def Environment.define (e : Environment) (n : Str) (v : LoxValue) : Environment :=
  match e.frames with
  | [] => ⟨[[(n, v)]]⟩
  | f :: rest => ⟨f.set n v :: rest⟩

/-- Lookup of a name across frames, innermost to outermost. -/
def Environment.getFrames : List Frame → Str → Option LoxValue
  | [], _ => none
  | f :: rest, n =>
      match f.lookup n with
      | some v => some v
      | none => Environment.getFrames rest n

/-- Modelled from the spec: `get` resolves the token's name innermost to
outermost and fails with an "undefined variable" runtime error carrying
the token when no frame binds it. -/
def Environment.get (e : Environment) (tok : Token) : LoxResult LoxValue :=
  match Environment.getFrames e.frames tok.name with
  | some v => .ok v
  | none => .error (.Runtime tok ("undefined variable " ++ tok.name))

/-- Overwrites the first binding of `n` found searching frames innermost
to outermost; `none` when no frame binds `n`. -/
def Environment.assignFrames : List Frame → Str → LoxValue → Option (List Frame)
  | [], _, _ => none
  | f :: rest, n, v =>
      if (f.lookup n).isSome then
        some (f.set n v :: rest)
      else
        (Environment.assignFrames rest n v).map (f :: ·)

/-- Modelled from the spec: `assign` overwrites an existing binding found
innermost to outermost and fails with an "undefined variable" runtime
error carrying the token when none exists; it never creates a binding. -/
def Environment.assign (e : Environment) (tok : Token) (v : LoxValue) :
    LoxResult Environment :=
  match Environment.assignFrames e.frames tok.name v with
  | some fs => .ok ⟨fs⟩
  | none => .error (.Runtime tok ("undefined variable " ++ tok.name))

/-- Mirrors the `Expr` enum of `expr.rs` (not in the snapshot); its
variants are fixed by the exhaustive match in `Interpreter::eval_expr`. -/
inductive Expr where
  | Literal (val : Literal)
  | Grouping (e : Expr)
  | Unary (op : Token) (right : Expr)
  | Binary (left : Expr) (op : Token) (right : Expr)
  | Variable (tok : Token)
  | Assign (tok : Token) (e : Expr)
  | Logical (left : Expr) (op : Token) (right : Expr)
  deriving DecidableEq, Repr

/-- Mirrors `Interpreter::eval_unary_expr` after the operand has been
evaluated: dispatch on the operator token's kind. -/
def evalUnaryOp (op : Token) (right : LoxValue) : LoxResult LoxValue :=
  match op.kind with
  | .Bang => .ok (.Boolean (!right.is_truthy))
  | .Minus =>
      match right with
      | .Number n => .ok (.Number (-1 * n))
      | _ => .error (.Runtime op "unary minus only applicable to numbers")
  | _ => .error (.Panic "bad unary")

/-- Mirrors the free function `assert_two_numbers` of `interpreter.rs`. -/
def assert_two_numbers (op : Token) (left right : LoxValue) : LoxResult Unit :=
  if left.type_matches right && left.is_number then
    .ok ()
  else
    .error (.Runtime op "operands must be two numbers")

/-- Mirrors `Interpreter::eval_binary_expr` after both operands have been
evaluated: dispatch on the operator token's kind.  The `as_number` calls
mirror the source; their panic branch surfaces as `Error.Panic`. -/
def evalBinaryOp (op : Token) (left right : LoxValue) : LoxResult LoxValue :=
  match op.kind with
  | .EqualEqual => .ok (.Boolean (left.eq right))
  | .BangEqual => .ok (.Boolean (!left.eq right))
  | .Minus =>
      match assert_two_numbers op left right with
      | .error e => .error e
      | .ok () =>
          match left.as_number, right.as_number with
          | some a, some b => .ok (.Number (a - b))
          | _, _ => .error (.Panic "tried to call as_number() on a non-number variant")
  | .Slash =>
      match assert_two_numbers op left right with
      | .error e => .error e
      | .ok () =>
          match left.as_number, right.as_number with
          | some a, some b => .ok (.Number (a / b))
          | _, _ => .error (.Panic "tried to call as_number() on a non-number variant")
  | .Star =>
      match assert_two_numbers op left right with
      | .error e => .error e
      | .ok () =>
          match left.as_number, right.as_number with
          | some a, some b => .ok (.Number (a * b))
          | _, _ => .error (.Panic "tried to call as_number() on a non-number variant")
  | .Plus =>
      match left, right with
      | .Number a, .Number b => .ok (.Number (a + b))
      | .String a, .String b => .ok (.String (a ++ b))
      | _, _ => .error (.Runtime op "+ needs either strings or numbers")
  | .Greater =>
      match assert_two_numbers op left right with
      | .error e => .error e
      | .ok () =>
          match left.as_number, right.as_number with
          | some a, some b => .ok (.Boolean (decide (a > b)))
          | _, _ => .error (.Panic "tried to call as_number() on a non-number variant")
  | .GreaterEqual =>
      match assert_two_numbers op left right with
      | .error e => .error e
      | .ok () =>
          match left.as_number, right.as_number with
          | some a, some b => .ok (.Boolean (decide (a ≥ b)))
          | _, _ => .error (.Panic "tried to call as_number() on a non-number variant")
  | .Less =>
      match assert_two_numbers op left right with
      | .error e => .error e
      | .ok () =>
          match left.as_number, right.as_number with
          | some a, some b => .ok (.Boolean (decide (a < b)))
          | _, _ => .error (.Panic "tried to call as_number() on a non-number variant")
  | .LessEqual =>
      match assert_two_numbers op left right with
      | .error e => .error e
      | .ok () =>
          match left.as_number, right.as_number with
          | some a, some b => .ok (.Boolean (decide (a ≤ b)))
          | _, _ => .error (.Panic "tried to call as_number() on a non-number variant")
  | _ => .error (.Panic "bad binary")

/-- Mirrors `Interpreter::eval_expr`.  The interpreter's mutable
environment is threaded explicitly: evaluation maps an environment and an
expression to a value together with the updated environment. -/
def evalExpr : Environment → Expr → LoxResult (LoxValue × Environment)
  | env, .Literal lit => .ok (lit.toLoxValue, env)
  | env, .Grouping e => evalExpr env e
  | env, .Unary op right =>
      match evalExpr env right with
      | .ok (v, env') =>
          match evalUnaryOp op v with
          | .ok w => .ok (w, env')
          | .error e => .error e
      | .error e => .error e
  | env, .Binary left op right =>
      match evalExpr env left with
      | .ok (lv, env₁) =>
          match evalExpr env₁ right with
          | .ok (rv, env₂) =>
              match evalBinaryOp op lv rv with
              | .ok w => .ok (w, env₂)
              | .error e => .error e
          | .error e => .error e
      | .error e => .error e
  | env, .Variable tok =>
      match env.get tok with
      | .ok v => .ok (v, env)
      | .error e => .error e
  | env, .Assign tok e =>
      match evalExpr env e with
      | .ok (v, env₁) =>
          match env₁.assign tok v with
          | .ok env₂ => .ok (v, env₂)
          | .error e => .error e
      | .error e => .error e
  | env, .Logical left op right =>
      match evalExpr env left with
      | .ok (lv, env₁) =>
          if op.kind_matches .Or then
            if lv.is_truthy then .ok (lv, env₁) else evalExpr env₁ right
          else
            if lv.is_truthy then evalExpr env₁ right else .ok (lv, env₁)
      | .error e => .error e

/-- Mirrors the `Stmt` enum.  The `While` constructor is modelled from the
spec: it is absent from the snapshot's `src/stmt.rs`, but the spec's
statement model and the exhaustive match in `Interpreter::execute` fix it
as a condition expression plus a body statement. -/
inductive Stmt where
  | Empty
  | Block (stmts : List Stmt)
  | Expression (e : Expr)
  | If (cond : Expr) (then_branch : Stmt) (else_branch : Stmt)
  | Print (e : Expr)
  | Var (name : Str) (init : Expr)
  | While (cond : Expr) (body : Stmt)

/-- State of one `Interpreter` run: its environment, plus the lines
written to standard output by executed print statements (modelled so that
side effects on output are observable). -/
structure InterpState where
  env : Environment
  output : List Str
  deriving DecidableEq, Repr

/-- Mirrors `Interpreter::new` driving an empty output channel. -/
def InterpState.new : InterpState := ⟨Environment.new, []⟩

/-- Outcome of executing statements: success with the final state, a
propagated error, or exhaustion of the step fuel that makes the
(potentially looping) executor total in the embedding. -/
inductive RunRes (α : Type) where
  | ok (a : α)
  | err (e : Error)
  | timeout
  deriving DecidableEq, Repr

mutual

/-- Mirrors `Interpreter::execute` for a single statement.  `fuel` bounds
the recursion depth (source recursion is unbounded); every recursive call
spends one unit. -/
def execute : Nat → Stmt → InterpState → RunRes InterpState
  | 0, _, _ => .timeout
  | fuel + 1, stmt, st =>
      match stmt with
      | .Empty => .ok st
      | .Block stmts =>
          match execList fuel stmts { st with env := st.env.push_scope } with
          | .ok st' => .ok { st' with env := st'.env.pop_scope }
          | r => r
      | .Expression e =>
          match evalExpr st.env e with
          | .ok (_, env') => .ok { st with env := env' }
          | .error er => .err er
      | .Print e =>
          match evalExpr st.env e with
          | .ok (v, env') => .ok ⟨env', st.output ++ [v.display]⟩
          | .error er => .err er
      | .Var name init =>
          match evalExpr st.env init with
          | .ok (v, env') => .ok { st with env := env'.define name v }
          | .error er => .err er
      | .If cond tb eb =>
          match evalExpr st.env cond with
          | .ok (v, env') =>
              if v.is_truthy then
                execute fuel tb { st with env := env' }
              else
                execute fuel eb { st with env := env' }
          | .error er => .err er
      | .While cond body =>
          match evalExpr st.env cond with
          | .ok (v, env') =>
              if v.is_truthy then
                match execute fuel body { st with env := env' } with
                | .ok st' => execute fuel (.While cond body) st'
                | r => r
              else
                .ok { st with env := env' }
          | .error er => .err er
  termination_by fuel _ _ => (fuel, 0)

/-- Mirrors the statement loops of `Interpreter::interpret` and the block
arm of `Interpreter::execute`: statements run in order and the first
non-success outcome is returned unchanged. -/
def execList : Nat → List Stmt → InterpState → RunRes InterpState
  | _, [], st => .ok st
  | fuel, s :: rest, st =>
      match execute fuel s st with
      | .ok st' => execList fuel rest st'
      | r => r
  termination_by fuel l _ => (fuel, l.length + 1)

end

/-- Mirrors `Interpreter::interpret`: executes the statement sequence in
order against the interpreter's state. -/
def interpret (fuel : Nat) (statements : List Stmt) (st : InterpState) :
    RunRes InterpState :=
  execList fuel statements st

/-- Helper: `assert_two_numbers` succeeds exactly when both operands are
of the `Number` variant. -/
theorem assert_two_numbers_ok_iff (op : Token) (l r : LoxValue) :
    assert_two_numbers op l r = .ok () ↔
      (l.is_number = true ∧ r.is_number = true) := by
  cases l <;> cases r <;>
    simp [assert_two_numbers, LoxValue.type_matches, LoxValue.tag,
      LoxValue.is_number]

/-- Helper: when `assert_two_numbers` fails it fails with exactly the
"operands must be two numbers" runtime error on the operator token. -/
theorem assert_two_numbers_error_iff (op : Token) (l r : LoxValue) :
    assert_two_numbers op l r = .error (.Runtime op "operands must be two numbers")
      ↔ (l.is_number = false ∨ r.is_number = false) := by
  cases l <;> cases r <;>
    simp [assert_two_numbers, LoxValue.type_matches, LoxValue.tag,
      LoxValue.is_number]

/-- C1: `LoxValue::is_truthy` yields `false` exactly on `Nil` and
`Boolean(false)`, and `true` on every other value, including `Number 0`,
the empty string and any callable. -/
theorem is_truthy_false_iff_nil_or_false :
    (∀ v : LoxValue, v.is_truthy = false ↔ (v = .Nil ∨ v = .Boolean false))
    ∧ (LoxValue.Number 0).is_truthy = true
    ∧ (LoxValue.String "").is_truthy = true
    ∧ ∀ c : Callable, (LoxValue.Function c).is_truthy = true := by
  refine ⟨fun v => ?_, rfl, rfl, fun c => rfl⟩
  cases v <;> simp [LoxValue.is_truthy]

/-- C2: `LoxValue` equality returns `false` across different variants,
compares `Number`/`String`/`Boolean` by underlying value, equates `Nil`
with `Nil`, and returns `false` for any two callables, even identical
ones. -/
theorem loxvalue_eq_spec :
    (∀ a b : LoxValue, a.tag ≠ b.tag → a.eq b = false)
    ∧ (∀ x y : Rat, (LoxValue.Number x).eq (.Number y) = decide (x = y))
    ∧ (∀ s t : String, (LoxValue.String s).eq (.String t) = decide (s = t))
    ∧ (∀ p q : Bool, (LoxValue.Boolean p).eq (.Boolean q) = (p == q))
    ∧ LoxValue.Nil.eq .Nil = true
    ∧ ∀ c d : Callable, (LoxValue.Function c).eq (.Function d) = false := by
  refine ⟨fun a b h => ?_, fun x y => ?_, fun s t => ?_, fun p q => rfl,
    rfl, fun c d => rfl⟩
  · cases a <;> cases b <;> simp_all [LoxValue.eq, LoxValue.tag]
  · rfl
  · rfl

/-- Witness for C2 at a concrete pair of different variants: a number is
never equal to nil. -/
theorem loxvalue_eq_spec_witness : (LoxValue.Number 1).eq .Nil = false :=
  loxvalue_eq_spec.1 (.Number 1) .Nil (by decide)

/-- C3: for evaluated operands of binary `+`, two numbers yield their
sum, two strings yield their concatenation (left then right), and any
other combination yields the "+ needs either strings or numbers" runtime
error on the operator token. -/
theorem plus_overload_spec (op : Token) (hop : op.kind = .Plus) :
    (∀ a b : Rat, evalBinaryOp op (.Number a) (.Number b) = .ok (.Number (a + b)))
    ∧ (∀ s t : String,
        evalBinaryOp op (.String s) (.String t) = .ok (.String (s ++ t)))
    ∧ ∀ l r : LoxValue,
        (¬ ∃ a b : Rat, l = .Number a ∧ r = .Number b) →
        (¬ ∃ s t : String, l = .String s ∧ r = .String t) →
        evalBinaryOp op l r =
          .error (.Runtime op "+ needs either strings or numbers") := by
  refine ⟨fun a b => ?_, fun s t => ?_, fun l r hn hs => ?_⟩
  · simp [evalBinaryOp, hop]
  · simp [evalBinaryOp, hop]
  · cases l <;> cases r <;> simp_all [evalBinaryOp, hop]

/-- Witness for C3: `1 + 1` is `Number 2`, `"a" + "b"` is `String "ab"`,
and `1 + "a"` is the overload error. -/
theorem plus_overload_spec_witness :
    evalBinaryOp ⟨.Plus, 1⟩ (.Number 1) (.Number 1) = .ok (.Number 2)
    ∧ evalBinaryOp ⟨.Plus, 1⟩ (.String "a") (.String "b") = .ok (.String "ab")
    ∧ evalBinaryOp ⟨.Plus, 1⟩ (.Number 1) (.String "a") =
        .error (.Runtime ⟨.Plus, 1⟩ "+ needs either strings or numbers") := by
  have h := plus_overload_spec ⟨.Plus, 1⟩ rfl
  refine ⟨?_, h.2.1 "a" "b", h.2.2 (.Number 1) (.String "a") (by simp) (by simp)⟩
  have h1 := h.1 1 1
  norm_num at h1
  exact h1

/-- C4: logical expressions evaluate the left operand first; `or` returns
a truthy left value and `and` returns a falsy left value without
evaluating the right operand (the result, environment included, does not
depend on the right operand at all), and otherwise the right operand is
evaluated from the post-left environment and its result returned. -/
theorem logical_short_circuit_spec (left right : Expr) (op : Token)
    (env env' : Environment) (v : LoxValue)
    (hl : evalExpr env left = .ok (v, env')) :
    (op.kind = .Or → v.is_truthy = true →
        evalExpr env (.Logical left op right) = .ok (v, env'))
    ∧ (op.kind = .Or → v.is_truthy = false →
        evalExpr env (.Logical left op right) = evalExpr env' right)
    ∧ (op.kind = .And → v.is_truthy = false →
        evalExpr env (.Logical left op right) = .ok (v, env'))
    ∧ (op.kind = .And → v.is_truthy = true →
        evalExpr env (.Logical left op right) = evalExpr env' right) := by
  refine ⟨fun hk ht => ?_, fun hk ht => ?_, fun hk ht => ?_, fun hk ht => ?_⟩ <;>
    simp [evalExpr, hl, Token.kind_matches, hk, ht]

/-- Witness for C4: `true or (x = 5)` short-circuits to `true` in the
empty environment, skipping a right operand whose evaluation would have
failed (and would have mutated the environment had `x` been bound). -/
theorem logical_short_circuit_spec_witness :
    evalExpr Environment.new
        (.Logical (.Literal (.Boolean true)) ⟨.Or, 1⟩
          (.Assign ⟨.Identifier "x", 1⟩ (.Literal (.Number 5)))) =
      .ok (.Boolean true, Environment.new) :=
  (logical_short_circuit_spec (.Literal (.Boolean true))
      (.Assign ⟨.Identifier "x", 1⟩ (.Literal (.Number 5))) ⟨.Or, 1⟩
      Environment.new Environment.new (.Boolean true) rfl).1 rfl rfl

/-- C5: for binary `-`, `/`, `*`, `>`, `>=`, `<`, `<=`, evaluation of the
operands' combination fails with the "operands must be two numbers"
runtime error on the operator token exactly when some operand is not a
number; on two numbers it succeeds with the corresponding arithmetic or
relational result, division by a zero denominator included. -/
theorem arith_relational_spec (op : Token)
    (hop : op.kind = .Minus ∨ op.kind = .Slash ∨ op.kind = .Star ∨
      op.kind = .Greater ∨ op.kind = .GreaterEqual ∨ op.kind = .Less ∨
      op.kind = .LessEqual) :
    (∀ l r : LoxValue,
        evalBinaryOp op l r = .error (.Runtime op "operands must be two numbers")
          ↔ (l.is_number = false ∨ r.is_number = false))
    ∧ ∀ a b : Rat,
        evalBinaryOp op (.Number a) (.Number b) =
          .ok (match op.kind with
            | .Minus => .Number (a - b)
            | .Slash => .Number (a / b)
            | .Star => .Number (a * b)
            | .Greater => .Boolean (decide (a > b))
            | .GreaterEqual => .Boolean (decide (a ≥ b))
            | .Less => .Boolean (decide (a < b))
            | _ => .Boolean (decide (a ≤ b))) := by
  constructor
  · intro l r
    rcases hop with h | h | h | h | h | h | h <;>
      cases l <;> cases r <;>
        simp [evalBinaryOp, h, assert_two_numbers, LoxValue.type_matches,
          LoxValue.tag, LoxValue.is_number, LoxValue.as_number]
  · intro a b
    rcases hop with h | h | h | h | h | h | h <;>
      simp [evalBinaryOp, h, assert_two_numbers, LoxValue.type_matches,
        LoxValue.tag, LoxValue.is_number, LoxValue.as_number]

/-- Witness for C5: subtraction of numbers succeeds, division by zero is
not an error, and a string operand to `-` produces the two-numbers
error. -/
theorem arith_relational_spec_witness :
    evalBinaryOp ⟨.Minus, 1⟩ (.Number 3) (.Number 1) = .ok (.Number 2)
    ∧ evalBinaryOp ⟨.Slash, 1⟩ (.Number 1) (.Number 0) = .ok (.Number (1 / 0))
    ∧ evalBinaryOp ⟨.Minus, 1⟩ (.String "a") (.Number 1) =
        .error (.Runtime ⟨.Minus, 1⟩ "operands must be two numbers") := by
  refine ⟨?_, ?_, ?_⟩
  · have h := (arith_relational_spec ⟨.Minus, 1⟩ (Or.inl rfl)).2 3 1
    norm_num at h
    exact h
  · exact (arith_relational_spec ⟨.Slash, 1⟩ (Or.inr (Or.inl rfl))).2 1 0
  · exact ((arith_relational_spec ⟨.Minus, 1⟩ (Or.inl rfl)).1
      (.String "a") (.Number 1)).2 (Or.inl rfl)

/-- Helper: overwriting a name in a frame makes its lookup return the new
value. -/
theorem Frame.lookup_set_self (f : Frame) (n : Str) (v : LoxValue) :
    (f.set n v).lookup n = some v := by
  induction f with
  | nil => simp [Frame.set, Frame.lookup]
  | cons kv rest ih =>
      obtain ⟨k, w⟩ := kv
      by_cases h : k = n <;> simp [Frame.set, Frame.lookup, h, ih]

/-- Helper: after a successful innermost-to-outermost assignment, the
innermost-to-outermost lookup of the assigned name finds the new value. -/
theorem getFrames_assignFrames (fs : List Frame) (fs' : List Frame)
    (n : Str) (v : LoxValue)
    (h : Environment.assignFrames fs n v = some fs') :
    Environment.getFrames fs' n = some v := by
  induction fs generalizing fs' with
  | nil => simp [Environment.assignFrames] at h
  | cons f rest ih =>
      unfold Environment.assignFrames at h
      split at h
      · rw [Option.some_inj] at h
        subst h
        simp [Environment.getFrames, Frame.lookup_set_self]
      · next hl =>
          obtain ⟨rest', hr, hfs⟩ := Option.map_eq_some'.mp h
          subst hfs
          have hnone : Frame.lookup f n = none :=
            Option.not_isSome_iff_eq_none.mp (by simpa using hl)
          simp [Environment.getFrames, hnone, ih rest' hr]

/-- C6: an assignment whose right-hand side evaluates to `v` and whose
target is bound stores `v` through `Environment.assign`, yields `v` as the
expression's own result, and a subsequent read of the variable yields
`v`. -/
theorem assignment_expr_spec (env env₁ env₂ : Environment) (tok : Token)
    (e : Expr) (v : LoxValue)
    (he : evalExpr env e = .ok (v, env₁))
    (ha : env₁.assign tok v = .ok env₂) :
    evalExpr env (.Assign tok e) = .ok (v, env₂)
    ∧ env₂.get tok = .ok v := by
  refine ⟨by simp [evalExpr, he, ha], ?_⟩
  unfold Environment.assign at ha
  split at ha
  · next fs hfs =>
      rw [Except.ok.injEq] at ha
      subst ha
      simp [Environment.get, getFrames_assignFrames _ _ _ _ hfs]
  · cases ha

/-- Witness for C6: with `x` bound to `Number 1`, evaluating `x = 5`
yields `Number 5` and stores it, so reading `x` afterwards yields
`Number 5`. -/
theorem assignment_expr_spec_witness :
    evalExpr (Environment.new.define "x" (.Number 1))
        (.Assign ⟨.Identifier "x", 1⟩ (.Literal (.Number 5))) =
      .ok (.Number 5, ⟨[[("x", .Number 5)]]⟩)
    ∧ (Environment.mk [[("x", LoxValue.Number 5)]]).get ⟨.Identifier "x", 1⟩ =
        .ok (.Number 5) :=
  assignment_expr_spec (Environment.new.define "x" (.Number 1))
    (Environment.new.define "x" (.Number 1)) ⟨[[("x", .Number 5)]]⟩
    ⟨.Identifier "x", 1⟩ (.Literal (.Number 5)) (.Number 5) rfl rfl

/-- C7: the statement type has a while form (condition plus body); its
condition is evaluated fresh before each iteration: a falsy condition
ends the loop immediately with success — zero body executions, execution
proceeding to the next statement — and a truthy condition runs the body
once and then re-enters the loop on the resulting state. -/
theorem while_spec (fuel : Nat) (cond : Expr) (body : Stmt)
    (st : InterpState) (v : LoxValue) (env' : Environment)
    (hc : evalExpr st.env cond = .ok (v, env')) :
    (v.is_truthy = false →
        execute (fuel + 1) (.While cond body) st = .ok { st with env := env' })
    ∧ (v.is_truthy = false → ∀ rest : List Stmt,
        execList (fuel + 1) (.While cond body :: rest) st =
          execList (fuel + 1) rest { st with env := env' })
    ∧ (v.is_truthy = true →
        execute (fuel + 1) (.While cond body) st =
          match execute fuel body { st with env := env' } with
          | .ok st' => execute fuel (.While cond body) st'
          | r => r) := by
  refine ⟨fun ht => ?_, fun ht rest => ?_, fun ht => ?_⟩
  · simp [execute, hc, ht]
  · simp [execList, execute, hc, ht]
  · simp [execute, hc, ht]

/-- Witness for C7: `while (false) {}` over the fresh interpreter state
executes its body zero times, succeeds, and falls through to the rest of
the statement list. -/
theorem while_spec_witness :
    execute 1 (.While (.Literal (.Boolean false)) (.Block [])) InterpState.new =
      .ok InterpState.new
    ∧ execList 1 [.While (.Literal (.Boolean false)) (.Block []), .Empty]
        InterpState.new =
      execList 1 [Stmt.Empty] InterpState.new := by
  have h := while_spec 0 (.Literal (.Boolean false)) (.Block [])
    InterpState.new (.Boolean false) Environment.new rfl
  exact ⟨h.1 rfl, h.2.1 rfl [.Empty]⟩

/-- C8: `interpret` runs its statements in order and the first statement
whose execution produces an error aborts the run, returning that error
unchanged; the statements after the failing one (here arbitrary) are
never executed and leave no trace in the outcome. -/
theorem interpret_fail_fast_spec (fuel : Nat) (pre post : List Stmt)
    (s : Stmt) (st st₁ : InterpState) (e : Error)
    (hpre : execList fuel pre st = .ok st₁)
    (hs : execute fuel s st₁ = .err e) :
    interpret fuel (pre ++ s :: post) st = .err e := by
  unfold interpret
  induction pre generalizing st with
  | nil =>
      simp only [execList] at hpre
      rw [RunRes.ok.injEq] at hpre
      subst hpre
      simp [execList, hs]
  | cons p ps ih =>
      rw [List.cons_append]
      unfold execList at hpre ⊢
      cases hp : execute fuel p st with
      | ok st' =>
          rw [hp] at hpre
          exact ih st' hpre
      | err e' => rw [hp] at hpre; cases hpre
      | timeout => rw [hp] at hpre; cases hpre

/-- Witness for C8: after an empty statement, reading the undeclared
variable `y` fails and aborts the run with that error, the trailing
statement never executing. -/
theorem interpret_fail_fast_spec_witness :
    interpret 1 [.Empty, .Expression (.Variable ⟨.Identifier "y", 3⟩), .Empty]
        InterpState.new =
      .err (.Runtime ⟨.Identifier "y", 3⟩ "undefined variable y") :=
  interpret_fail_fast_spec 1 [.Empty] [.Empty]
    (.Expression (.Variable ⟨.Identifier "y", 3⟩))
    InterpState.new InterpState.new
    (.Runtime ⟨.Identifier "y", 3⟩ "undefined variable y")
    (by simp [execList, execute])
    (by simp [execute, evalExpr, Environment.get, Environment.getFrames,
      Frame.lookup, Token.name, InterpState.new, Environment.new])

/-- C9: a successful `assert_two_numbers` check guarantees both operands
are of the `Number` variant, so the `as_number` projections performed
afterwards by the arithmetic and relational arms are defined (their panic
branch is unreachable) and those arms can never surface a panic. -/
theorem assert_two_numbers_sound (op : Token) (l r : LoxValue)
    (h : assert_two_numbers op l r = .ok ()) :
    (∃ a, l = .Number a) ∧ (∃ b, r = .Number b)
    ∧ (l.as_number).isSome = true ∧ (r.as_number).isSome = true
    ∧ ((op.kind = .Minus ∨ op.kind = .Slash ∨ op.kind = .Star ∨
        op.kind = .Greater ∨ op.kind = .GreaterEqual ∨ op.kind = .Less ∨
        op.kind = .LessEqual) →
      ∀ msg : Str, evalBinaryOp op l r ≠ .error (.Panic msg)) := by
  obtain ⟨hl, hr⟩ := (assert_two_numbers_ok_iff op l r).mp h
  obtain ⟨a, rfl⟩ : ∃ a, l = .Number a := by
    cases l <;> simp_all [LoxValue.is_number]
  obtain ⟨b, rfl⟩ : ∃ b, r = .Number b := by
    cases r <;> simp_all [LoxValue.is_number]
  refine ⟨⟨a, rfl⟩, ⟨b, rfl⟩, rfl, rfl, fun hop msg => ?_⟩
  rcases hop with hk | hk | hk | hk | hk | hk | hk <;>
    simp [evalBinaryOp, hk, assert_two_numbers, LoxValue.type_matches,
      LoxValue.tag, LoxValue.is_number, LoxValue.as_number]

/-- Witness for C9: the check succeeds on two concrete numbers, both
projections are defined, and concrete subtraction does not panic. -/
theorem assert_two_numbers_sound_witness :
    ((LoxValue.Number 3).as_number).isSome = true
    ∧ ∀ msg : Str,
        evalBinaryOp ⟨.Minus, 1⟩ (.Number 3) (.Number 4) ≠
          .error (.Panic msg) := by
  have h := assert_two_numbers_sound ⟨.Minus, 1⟩ (.Number 3) (.Number 4) rfl
  exact ⟨h.2.2.1, fun msg => h.2.2.2.2 (Or.inl rfl) msg⟩

/-- C10: whenever both operands of a binary comparison evaluate
successfully, `==` yields a boolean `b` and `!=` yields its logical
negation, from the same final environment; neither comparison can fail. -/
theorem equality_operators_spec (env env₁ env₂ : Environment)
    (l r : Expr) (opEq opNe : Token) (lv rv : LoxValue)
    (hkEq : opEq.kind = .EqualEqual) (hkNe : opNe.kind = .BangEqual)
    (hl : evalExpr env l = .ok (lv, env₁))
    (hr : evalExpr env₁ r = .ok (rv, env₂)) :
    evalExpr env (.Binary l opEq r) = .ok (.Boolean (lv.eq rv), env₂)
    ∧ evalExpr env (.Binary l opNe r) = .ok (.Boolean (!lv.eq rv), env₂) := by
  constructor <;> simp [evalExpr, hl, hr, evalBinaryOp, hkEq, hkNe]

/-- Witness for C10: `1 == nil` evaluates to `Boolean false` and
`1 != nil` to `Boolean true`. -/
theorem equality_operators_spec_witness :
    evalExpr Environment.new
        (.Binary (.Literal (.Number 1)) ⟨.EqualEqual, 1⟩ (.Literal .Nil)) =
      .ok (.Boolean false, Environment.new)
    ∧ evalExpr Environment.new
        (.Binary (.Literal (.Number 1)) ⟨.BangEqual, 1⟩ (.Literal .Nil)) =
      .ok (.Boolean true, Environment.new) :=
  equality_operators_spec Environment.new Environment.new Environment.new
    (.Literal (.Number 1)) (.Literal .Nil) ⟨.EqualEqual, 1⟩ ⟨.BangEqual, 1⟩
    (.Number 1) .Nil rfl rfl rfl rfl
